import Mathlib

/-!
Verification development for the Birds repository's audio preprocessing,
multi-model inference and consensus pipeline.

Machine floats are embedded as exact rationals (`ℚ`), except where the
source computes logarithms/square roots (`detect_silence`), which are
embedded over `ℝ`.  Fallible calls are embedded as `Option`/`Except`
values (`none`/`error` = the Python call raised).  Python dicts keyed by
strings are embedded as association lists in insertion order, matching
Python's ordered dict semantics.
-/

namespace Birds

/-- Modelled from the spec: `SpeciesPrediction` of the data model (the class
`PredictionResult` of `app/models/base.py`, which is not part of the provided
sources; field names are those used by `model_registry.compute_consensus`):
species code and scientific name optional, common name required, a confidence
and a rank. -/
structure PredictionResult where
  species_code : Option String
  species_scientific : Option String
  species_common : String
  confidence : ℚ
  rank : ℕ
deriving DecidableEq, Repr

/-- Modelled from the spec: `ModelOutput` of the data model (class of
`app/models/base.py`, absent from the provided sources): the producing
model's name and its ordered prediction list. -/
structure ModelOutput where
  model_name : String
  predictions : List PredictionResult
deriving DecidableEq, Repr

/-- One entry of the `top_predictions` list built inside
`ModelRegistry.compute_consensus`: the rank-1 prediction of one model. -/
structure TopPrediction where
  model : String
  species : String
  species_code : Option String
  species_scientific : Option String
  confidence : ℚ
deriving DecidableEq, Repr

/-- The dict returned by `ModelRegistry.compute_consensus` and its helpers. -/
structure ConsensusResult where
  species_code : Option String
  species_scientific : Option String
  species_common : String
  confidence : ℚ
  method : String
  agreement_count : ℕ
  total_models : ℕ
deriving DecidableEq, Repr

/-- Python's `max(xs, key=f)`: `none` on the empty list (Python raises
`ValueError` there); otherwise keeps the current maximum and replaces it
only on a strictly greater key, so the FIRST element attaining the maximum
wins ties.  `Counter.most_common(1)[0]` has the same tie behaviour
(`heapq.nlargest` breaks key ties by iteration order). -/
def maxByKey {α β : Type} [LinearOrder β] (f : α → β) : List α → Option α
  | [] => none
  | x :: xs => some (xs.foldl (fun best y => if f y > f best then y else best) x)

/-- The key sequence of a Python dict/`Counter` built by inserting the
elements of a list in order: distinct values, ordered by first occurrence. -/
def dedupKeys : List String → List String
  | [] => []
  | s :: rest => s :: dedupKeys (rest.filter (fun t => t ≠ s))
termination_by l => l.length
decreasing_by
  simp only [List.length_cons]
  exact Nat.lt_succ_of_le (List.length_filter_le _ _)

/-- The items of `Counter(p["species"] for p in predictions)` in
`ModelRegistry._majority_vote`: each distinct species (in first-seen order)
with its number of occurrences. -/
def counterItems (predictions : List TopPrediction) : List (String × ℕ) :=
  (dedupKeys (predictions.map (·.species))).map
    (fun s => (s, (predictions.filter (fun p => p.species = s)).length))

/-- `ModelRegistry._majority_vote`.  `none` embeds the (unreachable at the
call site) Python exceptions: `most_common(1)[0]` on an empty counter /
`next(...)` finding nothing. -/
def majority_vote (predictions : List TopPrediction) (total_models : ℕ) :
    Option ConsensusResult :=
  match maxByKey (fun it => it.2) (counterItems predictions) with
  | none => none
  | some (winner, count) =>
    match predictions.find? (fun p => p.species = winner) with
    | none => none
    | some winner_pred =>
      let agreeing := predictions.filter (fun p => p.species = winner)
      some
        { species_code := winner_pred.species_code
          species_scientific := winner_pred.species_scientific
          species_common := winner
          confidence := (agreeing.map (·.confidence)).sum / (agreeing.length : ℚ)
          method := "majority_vote"
          agreement_count := count
          total_models := total_models }

/-- The per-species record accumulated by the `defaultdict` in
`ModelRegistry._weighted_average`: summed confidence, member count, and the
first prediction naming the species. -/
structure SpeciesScore where
  score : ℚ
  count : ℕ
  pred : Option TopPrediction
deriving DecidableEq, Repr

/-- The `species_scores` dict of `ModelRegistry._weighted_average` after its
aggregation loop, as an association list in insertion (first-seen) order:
for each distinct species, the sum of confidences of the predictions naming
it, their number, and the first such prediction. -/
def species_scores (predictions : List TopPrediction) :
    List (String × SpeciesScore) :=
  (dedupKeys (predictions.map (·.species))).map (fun s =>
    let group := predictions.filter (fun p => p.species = s)
    (s, { score := (group.map (·.confidence)).sum
          count := group.length
          pred := predictions.find? (fun p => p.species = s) }))

/-- `ModelRegistry._weighted_average`: winner is the species with the
highest summed confidence (`max` over the dict items, first-seen ties
first); reported confidence is the winner's sum divided by its count. -/
def weighted_average (predictions : List TopPrediction) (total_models : ℕ) :
    Option ConsensusResult :=
  match maxByKey (fun it => it.2.score) (species_scores predictions) with
  | none => none
  | some (winner_species, winner_data) =>
    match winner_data.pred with
    | none => none
    | some wp =>
      some
        { species_code := wp.species_code
          species_scientific := wp.species_scientific
          species_common := winner_species
          confidence := winner_data.score / (winner_data.count : ℚ)
          method := "weighted_average"
          agreement_count := winner_data.count
          total_models := total_models }

/-- `ModelRegistry._max_confidence`: winner is the single top-1 prediction
with the highest confidence; agreement counts the predictions naming the
winner's species. -/
def max_confidence (predictions : List TopPrediction) (total_models : ℕ) :
    Option ConsensusResult :=
  (maxByKey (fun p => p.confidence) predictions).map (fun winner =>
    { species_code := winner.species_code
      species_scientific := winner.species_scientific
      species_common := winner.species
      confidence := winner.confidence
      method := "max_confidence"
      agreement_count := (predictions.filter (fun p => p.species = winner.species)).length
      total_models := total_models })

/-- The `top_predictions` collection loop of `compute_consensus`: one entry
per output with a non-empty prediction list, built from its first
prediction. -/
def top_predictions (model_outputs : List ModelOutput) : List TopPrediction :=
  model_outputs.filterMap (fun output =>
    output.predictions.head?.map (fun pred =>
      { model := output.model_name
        species := pred.species_common
        species_code := pred.species_code
        species_scientific := pred.species_scientific
        confidence := pred.confidence }))

/-- `ModelRegistry.compute_consensus`.  `none` embeds an uncaught Python
exception (reachable only through the helpers' unreachable branches). -/
def compute_consensus (model_outputs : List ModelOutput) (method : String) :
    Option ConsensusResult :=
  if model_outputs.isEmpty then
    some
      { species_code := none
        species_scientific := none
        species_common := "No prediction"
        confidence := 0
        method := method
        agreement_count := 0
        total_models := 0 }
  else
    let tops := top_predictions model_outputs
    if tops.isEmpty then
      some
        { species_code := none
          species_scientific := none
          species_common := "No prediction"
          confidence := 0
          method := method
          agreement_count := 0
          total_models := model_outputs.length }
    else if method = "majority_vote" then
      majority_vote tops model_outputs.length
    else if method = "max_confidence" then
      max_confidence tops model_outputs.length
    else
      weighted_average tops model_outputs.length

/-- Modelled from the spec: a loaded `ClassificationModel`
(`BaseBirdModel` of `app/models/base.py`, absent from the provided
sources).  Its `predict` call, applied to a waveform and optional
latitude/longitude hints, either returns a `ModelOutput` or raises
(`Except.error`). -/
structure BaseBirdModel where
  model_name : String
  predict : List ℚ → Option ℚ → Option ℚ → Except String ModelOutput

/-- Python truthiness of the `model_names: Optional[List[str]]` argument of
`predict_all`: `None` and the empty list are falsy. -/
def names_truthy : Option (List String) → Bool
  | none => false
  | some names => !names.isEmpty

/-- The model-selection step of `ModelRegistry.predict_all`: a truthy
`model_names` selects the named, registered models (in name order, unknown
names skipped); otherwise all registered models are selected.  The registry
dict is an association list in insertion order. -/
def select_models (registry : List (String × BaseBirdModel))
    (model_names : Option (List String)) : List BaseBirdModel :=
  if names_truthy model_names then
    (model_names.getD []).filterMap (fun name => registry.lookup name)
  else
    registry.map (·.2)

/-- `ModelRegistry.predict_all`: run `predict` for every selected model
(`asyncio.gather(..., return_exceptions=True)`), then keep the successful
`ModelOutput`s in order and drop each raised exception. -/
def predict_all (registry : List (String × BaseBirdModel)) (audio : List ℚ)
    (lat lon : Option ℚ) (model_names : Option (List String)) :
    List ModelOutput :=
  let models := select_models registry model_names
  if models.isEmpty then
    []
  else
    let results := models.map (fun m => m.predict audio lat lon)
    results.filterMap (fun r =>
      match r with
      | Except.ok output => some output
      | Except.error _ => none)

/-- `np.abs(audio).max()` of `AudioProcessor` over a waveform, with value 0
on the empty waveform (where NumPy would raise); all other uses agree since
absolute values are nonnegative. -/
def peakAbs (audio : List ℚ) : ℚ :=
  (audio.map (fun x => |x|)).foldr max 0

/-- `AudioProcessor.normalize`: divide by the peak absolute sample when it
is positive, otherwise return the input unchanged. -/
def normalize (audio : List ℚ) : List ℚ :=
  let peak := peakAbs audio
  if peak > 0 then audio.map (fun x => x / peak) else audio

/-- `AudioProcessor.pad_or_trim`: center-trim when longer than the target,
zero-pad (left `padding // 2`, remainder right) when shorter, identity when
equal. -/
def pad_or_trim (audio : List ℚ) (target_samples : ℕ) : List ℚ :=
  if audio.length > target_samples then
    let start := (audio.length - target_samples) / 2
    (audio.drop start).take target_samples
  else if audio.length < target_samples then
    let padding := target_samples - audio.length
    let pad_left := padding / 2
    let pad_right := padding - pad_left
    List.replicate pad_left 0 ++ audio ++ List.replicate pad_right 0
  else
    audio

/-- The root-mean-square of `AudioProcessor.detect_silence`:
`np.sqrt(np.mean(audio ** 2))`, over `ℝ` because the source takes a real
square root. -/
noncomputable def rms (audio : List ℝ) : ℝ :=
  Real.sqrt ((audio.map (fun x => x ^ 2)).sum / (audio.length : ℝ))

/-- `AudioProcessor.detect_silence`: the RMS level in decibels,
`20 * log10(rms + 1e-10)`, is below the threshold. -/
def detect_silence (audio : List ℝ) (threshold_db : ℝ) : Prop :=
  20 * Real.logb 10 (rms audio + 1e-10) < threshold_db

/-- The `EnhancementSettings` dataclass of `audio_enhancement.py`, with its
source defaults. -/
structure EnhancementSettings where
  bandpass_enabled : Bool := false
  bandpass_low_freq : Int := 1000
  bandpass_high_freq : Int := 8000
  bandpass_order : ℕ := 5
  noise_reduction_enabled : Bool := false
  noise_reduction_strength : ℚ := 1
  noise_reduction_stationary : Bool := true
  auto_gain_enabled : Bool := false
  auto_gain_target_db : ℚ := -3
  spectral_gate_enabled : Bool := false
  spectral_gate_threshold_db : ℚ := -40
  highpass_enabled : Bool := false
  highpass_freq : Int := 200
deriving DecidableEq, Repr

/-- The external DSP collaborators of `AudioEnhancer` (spec section 6):
scipy's Butterworth design plus zero-phase `filtfilt`, the `noisereduce`
library, the inline spectral-gate numerics (envelope, Gaussian smoothing
and the dB powers, all calls into scipy/NumPy float routines), and the
auto-gain dB computation.  `none` means the external call raised. -/
structure DspCapabilities where
  scipy_available : Bool
  noisereduce_available : Bool
  butter_filtfilt_highpass : ℕ → ℚ → List ℚ → Option (List ℚ)
  butter_filtfilt_bandpass : ℕ → ℚ → ℚ → List ℚ → Option (List ℚ)
  reduce_noise : ℕ → Bool → ℚ → List ℚ → Option (List ℚ)
  spectral_gate_core : ℕ → ℚ → List ℚ → Option (List ℚ)
  auto_gain_core : ℚ → List ℚ → Option (List ℚ)

/-- `AudioEnhancer._apply_highpass`: skip without scipy; skip (returning
the input and `false`) when the cutoff reaches the Nyquist frequency;
otherwise design an order-4 Butterworth high-pass at the normalized cutoff
and apply it, returning the input and `false` if the filter call raises. -/
def apply_highpass (caps : DspCapabilities) (audio : List ℚ)
    (sample_rate : ℕ) (cutoff_freq : Int) : List ℚ × Bool :=
  if !caps.scipy_available then (audio, false)
  else
    let nyquist : ℚ := (sample_rate : ℚ) / 2
    if (cutoff_freq : ℚ) ≥ nyquist then (audio, false)
    else
      match caps.butter_filtfilt_highpass 4 ((cutoff_freq : ℚ) / nyquist) audio with
      | some filtered => (filtered, true)
      | none => (audio, false)

/-- `AudioEnhancer._apply_bandpass`: skip without scipy; a high cutoff at
or above Nyquist is clamped to `int(nyquist * 0.95)` (the stage still
runs); skip only when the low cutoff reaches the (possibly clamped) high
cutoff; otherwise apply the Butterworth band-pass at the normalized
cutoffs, returning the input and `false` if the filter call raises. -/
def apply_bandpass (caps : DspCapabilities) (audio : List ℚ)
    (sample_rate : ℕ) (low_freq high_freq : Int) (order : ℕ) :
    List ℚ × Bool :=
  if !caps.scipy_available then (audio, false)
  else
    let nyquist : ℚ := (sample_rate : ℚ) / 2
    let high_adj : Int :=
      if (high_freq : ℚ) ≥ nyquist then ⌊nyquist * (95 / 100)⌋ else high_freq
    if low_freq ≥ high_adj then (audio, false)
    else
      match caps.butter_filtfilt_bandpass order ((low_freq : ℚ) / nyquist)
          ((high_adj : ℚ) / nyquist) audio with
      | some filtered => (filtered, true)
      | none => (audio, false)

/-- `AudioEnhancer._apply_noise_reduction`: skip without `noisereduce`;
otherwise call `reduce_noise` with the strength clamped to at most 1,
returning the input and `false` if the call raises. -/
def apply_noise_reduction (caps : DspCapabilities) (audio : List ℚ)
    (sample_rate : ℕ) (strength : ℚ) (stationary : Bool) : List ℚ × Bool :=
  if !caps.noisereduce_available then (audio, false)
  else
    match caps.reduce_noise sample_rate stationary (min 1 strength) audio with
    | some reduced => (reduced, true)
    | none => (audio, false)

/-- `AudioEnhancer._apply_spectral_gate`: both the scipy path and the
`ImportError` fallback succeed (`true`); only a raised exception returns
the input and `false`. -/
def apply_spectral_gate (caps : DspCapabilities) (audio : List ℚ)
    (sample_rate : ℕ) (threshold_db : ℚ) : List ℚ × Bool :=
  match caps.spectral_gate_core sample_rate threshold_db audio with
  | some gated => (gated, true)
  | none => (audio, false)

/-- `AudioEnhancer._apply_auto_gain`: a silent input (peak below `1e-10`)
is skipped; otherwise the gain computation runs, returning the input and
`false` if it raises. -/
def apply_auto_gain (caps : DspCapabilities) (audio : List ℚ)
    (target_db : ℚ) : List ℚ × Bool :=
  let peak := peakAbs audio
  if peak < 1e-10 then (audio, false)
  else
    match caps.auto_gain_core target_db audio with
    | some gained => (gained, true)
    | none => (audio, false)

/-- The `applied["highpass"]` metadata entry written by `enhance`. -/
structure HighpassMeta where
  enabled : Bool
  applied : Bool
  freq : Int
deriving DecidableEq, Repr

/-- The `applied["bandpass"]` metadata entry written by `enhance`
(recording the ORIGINAL settings cutoffs, not the clamped ones). -/
structure BandpassMeta where
  enabled : Bool
  applied : Bool
  low_freq : Int
  high_freq : Int
deriving DecidableEq, Repr

/-- The `applied["noise_reduction"]` metadata entry written by `enhance`. -/
structure NoiseReductionMeta where
  enabled : Bool
  applied : Bool
  strength : ℚ
deriving DecidableEq, Repr

/-- The `applied["spectral_gate"]` metadata entry written by `enhance`. -/
structure SpectralGateMeta where
  enabled : Bool
  applied : Bool
  threshold_db : ℚ
deriving DecidableEq, Repr

/-- The `applied["auto_gain"]` metadata entry written by `enhance`. -/
structure AutoGainMeta where
  enabled : Bool
  applied : Bool
  target_db : ℚ
deriving DecidableEq, Repr

/-- The `applied` metadata dict returned by `enhance`: one optional entry
per stage, present exactly when the stage was enabled. -/
structure AppliedEnhancements where
  highpass : Option HighpassMeta := none
  bandpass : Option BandpassMeta := none
  noise_reduction : Option NoiseReductionMeta := none
  spectral_gate : Option SpectralGateMeta := none
  auto_gain : Option AutoGainMeta := none
deriving DecidableEq, Repr

/-- `AudioEnhancer.enhance`: the fixed-order chain high-pass → band-pass →
noise reduction → spectral gate → auto-gain, each stage run only when
enabled, threading the waveform through and recording a metadata entry per
enabled stage. -/
def enhance (caps : DspCapabilities) (audio : List ℚ) (sample_rate : ℕ)
    (settings : EnhancementSettings) : List ℚ × AppliedEnhancements :=
  let st0 : List ℚ × AppliedEnhancements := (audio, {})
  let st1 :=
    if settings.highpass_enabled then
      let r := apply_highpass caps st0.1 sample_rate settings.highpass_freq
      (r.1, { st0.2 with
                highpass := some ⟨true, r.2, settings.highpass_freq⟩ })
    else st0
  let st2 :=
    if settings.bandpass_enabled then
      let r := apply_bandpass caps st1.1 sample_rate
        settings.bandpass_low_freq settings.bandpass_high_freq
        settings.bandpass_order
      (r.1, { st1.2 with
                bandpass := some ⟨true, r.2, settings.bandpass_low_freq,
                  settings.bandpass_high_freq⟩ })
    else st1
  let st3 :=
    if settings.noise_reduction_enabled then
      let r := apply_noise_reduction caps st2.1 sample_rate
        settings.noise_reduction_strength settings.noise_reduction_stationary
      (r.1, { st2.2 with
                noise_reduction := some ⟨true, r.2,
                  settings.noise_reduction_strength⟩ })
    else st2
  let st4 :=
    if settings.spectral_gate_enabled then
      let r := apply_spectral_gate caps st3.1 sample_rate
        settings.spectral_gate_threshold_db
      (r.1, { st3.2 with
                spectral_gate := some ⟨true, r.2,
                  settings.spectral_gate_threshold_db⟩ })
    else st3
  let st5 :=
    if settings.auto_gain_enabled then
      let r := apply_auto_gain caps st4.1 settings.auto_gain_target_db
      (r.1, { st4.2 with
                auto_gain := some ⟨true, r.2, settings.auto_gain_target_db⟩ })
    else st4
  st5

/-! ### Concrete fixtures used in examples, witnesses and counterexamples -/

/-- A model output naming "Eurasian Blackbird" at confidence 0.92. -/
def blackbird92 : ModelOutput :=
  { model_name := "model_a"
    predictions := [⟨none, none, "Eurasian Blackbird", 92/100, 1⟩] }

/-- A model output naming "Eurasian Blackbird" at confidence 0.88. -/
def blackbird88 : ModelOutput :=
  { model_name := "model_b"
    predictions := [⟨none, none, "Eurasian Blackbird", 88/100, 1⟩] }

/-- A model output naming "Robin" at confidence 0.9. -/
def outRobin : ModelOutput :=
  { model_name := "A"
    predictions := [⟨none, none, "Robin", 9/10, 1⟩] }

/-- A model output naming "Blackbird" at confidence 0.7. -/
def outBlackbird : ModelOutput :=
  { model_name := "B"
    predictions := [⟨none, none, "Blackbird", 7/10, 1⟩] }

/-- A model whose predict call succeeds with an output named "mA". -/
def modelOkA : BaseBirdModel :=
  ⟨"mA", fun _ _ _ => Except.ok { model_name := "mA", predictions := [] }⟩

/-- A model whose predict call raises. -/
def modelFailB : BaseBirdModel :=
  ⟨"mB", fun _ _ _ => Except.error "inference failed"⟩

/-- A model whose predict call succeeds with an output named "mC". -/
def modelOkC : BaseBirdModel :=
  ⟨"mC", fun _ _ _ => Except.ok { model_name := "mC", predictions := [] }⟩

/-- A registry of three models, the second of which fails. -/
def registry3 : List (String × BaseBirdModel) :=
  [("mA", modelOkA), ("mB", modelFailB), ("mC", modelOkC)]

/-- Concrete DSP capabilities: everything available; the band-pass filter
doubles every sample, the high-pass filter halves it, the remaining stages
return their input; no call raises. -/
def capsExample : DspCapabilities :=
  { scipy_available := true
    noisereduce_available := true
    butter_filtfilt_highpass := fun _ _ audio => some (audio.map (fun x => x / 2))
    butter_filtfilt_bandpass := fun _ _ _ audio => some (audio.map (fun x => 2 * x))
    reduce_noise := fun _ _ _ audio => some audio
    spectral_gate_core := fun _ _ audio => some audio
    auto_gain_core := fun _ audio => some audio }

/-- Settings enabling only the band-pass stage, with a high cutoff (9000
Hz) above the Nyquist frequency of a 16 kHz signal. -/
def bandpassAboveNyquist : EnhancementSettings :=
  { bandpass_enabled := true
    bandpass_low_freq := 1000
    bandpass_high_freq := 9000
    bandpass_order := 5 }

/-! ### Helper lemmas -/

/-- The fold inside `maxByKey` returns either the seed (then a maximum) or
the first list element attaining the strict maximum over seed and list. -/
theorem foldl_maxByKey_pick {α β : Type} [LinearOrder β] (f : α → β) :
    ∀ (xs : List α) (a r : α),
      xs.foldl (fun best y => if f y > f best then y else best) a = r →
      (r = a ∧ ∀ x ∈ xs, f x ≤ f a) ∨
      (∃ l1 l2, xs = l1 ++ r :: l2 ∧ f a < f r ∧ (∀ x ∈ l1, f x < f r) ∧
        ∀ x ∈ xs, f x ≤ f r) := by
  intro xs
  induction xs with
  | nil => intro a r h; exact Or.inl ⟨h.symm, by simp⟩
  | cons x xs ih =>
    intro a r h
    simp only [List.foldl_cons] at h
    by_cases hx : f x > f a
    · rw [if_pos hx] at h
      rcases ih x r h with ⟨rfl, hmax⟩ | ⟨l1, l2, hsplit, hlt, hpre, hmax⟩
      · exact Or.inr ⟨[], xs, by simp, hx, by simp,
          by intro y hy
             rcases List.mem_cons.mp hy with rfl | hy
             · exact le_refl _
             · exact hmax y hy⟩
      · refine Or.inr ⟨x :: l1, l2, by simp [hsplit], lt_trans hx hlt, ?_, ?_⟩
        · intro y hy
          rcases List.mem_cons.mp hy with rfl | hy
          · exact hlt
          · exact hpre y hy
        · intro y hy
          rcases List.mem_cons.mp hy with rfl | hy
          · exact le_of_lt hlt
          · exact hmax y hy
    · rw [if_neg hx] at h
      push_neg at hx
      rcases ih a r h with ⟨rfl, hmax⟩ | ⟨l1, l2, hsplit, hlt, hpre, hmax⟩
      · refine Or.inl ⟨rfl, ?_⟩
        intro y hy
        rcases List.mem_cons.mp hy with rfl | hy
        · exact hx
        · exact hmax y hy
      · refine Or.inr ⟨x :: l1, l2, by simp [hsplit], hlt, ?_, ?_⟩
        · intro y hy
          rcases List.mem_cons.mp hy with rfl | hy
          · exact lt_of_le_of_lt hx hlt
          · exact hpre y hy
        · intro y hy
          rcases List.mem_cons.mp hy with rfl | hy
          · exact le_trans hx (le_of_lt hlt)
          · exact hmax y hy

/-- Python's `max(key=f)` returns the first element attaining the maximal
key: everything strictly before it has a strictly smaller key, everything
in the list a key at most as large. -/
theorem maxByKey_eq_some {α β : Type} [LinearOrder β] {f : α → β}
    {l : List α} {b : α} (h : maxByKey f l = some b) :
    ∃ l1 l2, l = l1 ++ b :: l2 ∧ (∀ x ∈ l1, f x < f b) ∧
      ∀ x ∈ l, f x ≤ f b := by
  match l with
  | [] => simp [maxByKey] at h
  | x :: xs =>
    simp only [maxByKey, Option.some.injEq] at h
    rcases foldl_maxByKey_pick f xs x b h with ⟨rfl, hmax⟩ |
        ⟨l1, l2, hsplit, hlt, hpre, hmax⟩
    · refine ⟨[], xs, by simp, by simp, ?_⟩
      intro y hy
      rcases List.mem_cons.mp hy with rfl | hy
      · exact le_refl _
      · exact hmax y hy
    · refine ⟨x :: l1, l2, by simp [hsplit], ?_, ?_⟩
      · intro y hy
        rcases List.mem_cons.mp hy with rfl | hy
        · exact hlt
        · exact hpre y hy
      · intro y hy
        rcases List.mem_cons.mp hy with rfl | hy
        · exact le_of_lt hlt
        · exact hmax y hy

/-- `maxByKey` succeeds on every non-empty list. -/
theorem maxByKey_isSome {α β : Type} [LinearOrder β] (f : α → β)
    {l : List α} (h : l ≠ []) : ∃ b, maxByKey f l = some b := by
  match l with
  | [] => exact absurd rfl h
  | x :: xs => exact ⟨_, rfl⟩

/-- `maxByKey` returns an element of the list. -/
theorem maxByKey_mem {α β : Type} [LinearOrder β] {f : α → β}
    {l : List α} {b : α} (h : maxByKey f l = some b) : b ∈ l := by
  rcases maxByKey_eq_some h with ⟨l1, l2, rfl, -, -⟩
  simp

/-- `dedupKeys` keeps exactly the elements of the list. -/
theorem mem_dedupKeys {s : String} :
    ∀ {l : List String}, s ∈ dedupKeys l ↔ s ∈ l := by
  intro l
  induction l using dedupKeys.induct with
  | case1 => simp [dedupKeys]
  | case2 a rest ih =>
    rw [dedupKeys]
    constructor
    · intro h
      rcases List.mem_cons.mp h with rfl | h
      · simp
      · rcases List.mem_filter.mp (ih.mp h) with ⟨hmem, -⟩
        exact List.mem_cons_of_mem _ hmem
    · intro h
      rcases List.mem_cons.mp h with rfl | h
      · simp
      · by_cases hsa : s = a
        · simp [hsa]
        · exact List.mem_cons_of_mem _
            (ih.mpr (List.mem_filter.mpr ⟨h, by simp [hsa]⟩))

/-- Filtering preserves the relative order of first occurrences: if `s`
occurs before `t` in the filtered list then it does so in the original
list, for elements kept by the filter. -/
theorem indexOf_filter_lt (p : String → Bool) :
    ∀ (l : List String) (s t : String), p s = true → p t = true → s ∈ l →
      (l.filter p).indexOf s < (l.filter p).indexOf t →
      l.indexOf s < l.indexOf t := by
  intro l
  induction l with
  | nil => intro s t _ _ hs; simp at hs
  | cons b l ih =>
    intro s t hps hpt hs h
    by_cases hpb : p b = true
    · rw [List.filter_cons_of_pos hpb] at h
      by_cases hsb : s = b
      · subst hsb
        rw [List.indexOf_cons_self] at h ⊢
        by_cases htb : t = s
        · subst htb; rw [List.indexOf_cons_self] at h; exact absurd h (lt_irrefl _)
        · rw [List.indexOf_cons_ne _ (fun hh => htb hh.symm)]
          exact Nat.succ_pos _
      · rw [List.indexOf_cons_ne _ (fun hh => hsb hh.symm)] at h ⊢
        by_cases htb : t = b
        · subst htb
          rw [List.indexOf_cons_self] at h
          exact absurd h (Nat.not_lt_zero _).elim
        · rw [List.indexOf_cons_ne _ (fun hh => htb hh.symm)] at h ⊢
          have hs' : s ∈ l := by
            rcases List.mem_cons.mp hs with rfl | hmem
            · exact absurd rfl hsb
            · exact hmem
          exact Nat.succ_lt_succ (ih s t hps hpt hs' (Nat.lt_of_succ_lt_succ h))
    · rw [List.filter_cons_of_neg (by simpa using hpb)] at h
      have hsb : s ≠ b := fun hh => hpb (hh ▸ hps)
      have htb : t ≠ b := fun hh => hpb (hh ▸ hpt)
      rw [List.indexOf_cons_ne _ (fun hh => hsb hh.symm),
        List.indexOf_cons_ne _ (fun hh => htb hh.symm)]
      have hs' : s ∈ l := by
        rcases List.mem_cons.mp hs with rfl | hmem
        · exact absurd rfl hsb
        · exact hmem
      exact Nat.succ_lt_succ (ih s t hps hpt hs' h)

/-- In `dedupKeys l`, a key listed strictly after `s` first occurs in `l`
strictly after `s`'s first occurrence: `dedupKeys` lists keys in
first-occurrence order. -/
theorem dedupKeys_indexOf_lt :
    ∀ (l d1 d2 : List String) (s t : String),
      dedupKeys l = d1 ++ s :: d2 → t ∈ d2 →
      l.indexOf s < l.indexOf t := by
  intro l
  induction l using dedupKeys.induct with
  | case1 =>
    intro d1 d2 s t hsplit
    rw [dedupKeys] at hsplit
    exact absurd hsplit.symm (List.append_ne_nil_of_right_ne_nil _ (by simp))
  | case2 a rest ih =>
    intro d1 d2 s t hsplit ht
    rw [dedupKeys] at hsplit
    cases d1 with
    | nil =>
      simp only [List.nil_append, List.cons.injEq] at hsplit
      obtain ⟨rfl, hd2⟩ := hsplit
      have htf : t ∈ rest.filter (fun u => u ≠ a) :=
        mem_dedupKeys.mp (hd2 ▸ ht)
      have hts : t ≠ a := by simpa using (List.mem_filter.mp htf).2
      rw [List.indexOf_cons_self, List.indexOf_cons_ne _ hts.symm]
      exact Nat.succ_pos _
    | cons b d1' =>
      simp only [List.cons_append, List.cons.injEq] at hsplit
      obtain ⟨rfl, hd⟩ := hsplit
      have hsf : s ∈ rest.filter (fun u => u ≠ a) :=
        mem_dedupKeys.mp (by rw [hd]; simp)
      have htf : t ∈ rest.filter (fun u => u ≠ a) :=
        mem_dedupKeys.mp (by rw [hd]; simp [ht])
      have hsb : s ≠ a := by simpa using (List.mem_filter.mp hsf).2
      have htb : t ≠ a := by simpa using (List.mem_filter.mp htf).2
      have hfilt := ih d1' d2 s t hd ht
      have hrest : rest.indexOf s < rest.indexOf t :=
        indexOf_filter_lt (fun u => u ≠ a) rest s t (by simpa using hsb)
          (by simpa using htb) (List.mem_filter.mp hsf).1 hfilt
      rw [List.indexOf_cons_ne _ hsb.symm, List.indexOf_cons_ne _ htb.symm]
      exact Nat.succ_lt_succ hrest

/-- Outputs with empty prediction lists contribute no top-1 prediction. -/
theorem top_predictions_eq_nil {model_outputs : List ModelOutput}
    (h : ∀ o ∈ model_outputs, o.predictions = []) :
    top_predictions model_outputs = [] := by
  induction model_outputs with
  | nil => rfl
  | cons o os ih =>
    rw [top_predictions, List.filterMap_cons, h o (by simp)]
    exact ih (fun o' ho' => h o' (List.mem_cons_of_mem _ ho'))

/-- A species occurring in the list is found by `find?`. -/
theorem find?_species_of_mem {s : String} {l : List TopPrediction}
    (h : s ∈ l.map (·.species)) :
    ∃ p, l.find? (fun q => q.species = s) = some p ∧ p.species = s := by
  obtain ⟨p, hp, hps⟩ := List.mem_map.mp h
  have hsome : (l.find? (fun q => q.species = s)).isSome := by
    rw [List.find?_isSome]
    exact ⟨p, hp, by simp [hps]⟩
  obtain ⟨q, hq⟩ := Option.isSome_iff_exists.mp hsome
  exact ⟨q, hq, by simpa using List.find?_some hq⟩

/-- `filterMap` keeps as many elements as the filter on success. -/
theorem length_filterMap_isSome {α β : Type} (f : α → Option β)
    (l : List α) :
    (l.filterMap f).length = (l.filter (fun x => (f x).isSome)).length := by
  induction l with
  | nil => rfl
  | cons x xs ih =>
    cases hfx : f x <;>
      simp [List.filterMap_cons, List.filter_cons, hfx, ih]

/-- Splitting a list's length by a Boolean predicate. -/
theorem length_filter_add_not {α : Type} (p : α → Bool) (l : List α) :
    (l.filter p).length + (l.filter (fun x => !p x)).length = l.length := by
  induction l with
  | nil => rfl
  | cons x xs ih =>
    cases hx : p x <;> simp [List.filter_cons, hx] <;> omega

/-- The peak is nonnegative. -/
theorem peakAbs_nonneg (audio : List ℚ) : 0 ≤ peakAbs audio := by
  induction audio with
  | nil => exact le_refl _
  | cons x xs ih =>
    exact le_trans ih (le_max_right _ _)

/-- The peak after dividing every sample by a positive constant. -/
theorem peakAbs_map_div (audio : List ℚ) (c : ℚ) (hc : 0 < c) :
    peakAbs (audio.map (fun x => x / c)) = peakAbs audio / c := by
  induction audio with
  | nil => simp [peakAbs]
  | cons x xs ih =>
    have habs : |x / c| = |x| / c := by
      rw [abs_div, abs_of_pos hc]
    simp only [peakAbs, List.map_cons, List.foldr_cons] at ih ⊢
    rw [habs, ih, max_div_div_right hc.le]

/-- Dispatch of `compute_consensus` to `weighted_average` when some model
contributed a prediction. -/
theorem compute_consensus_weighted {model_outputs : List ModelOutput}
    (hne : model_outputs ≠ []) (htop : top_predictions model_outputs ≠ []) :
    compute_consensus model_outputs "weighted_average" =
      weighted_average (top_predictions model_outputs)
        model_outputs.length := by
  have h1 : model_outputs.isEmpty = false := by
    simpa [List.isEmpty_iff] using hne
  have h2 : (top_predictions model_outputs).isEmpty = false := by
    simpa [List.isEmpty_iff] using htop
  simp [compute_consensus, h1, h2]

/-- Dispatch of `compute_consensus` to `majority_vote`. -/
theorem compute_consensus_majority {model_outputs : List ModelOutput}
    (hne : model_outputs ≠ []) (htop : top_predictions model_outputs ≠ []) :
    compute_consensus model_outputs "majority_vote" =
      majority_vote (top_predictions model_outputs)
        model_outputs.length := by
  have h1 : model_outputs.isEmpty = false := by
    simpa [List.isEmpty_iff] using hne
  have h2 : (top_predictions model_outputs).isEmpty = false := by
    simpa [List.isEmpty_iff] using htop
  simp [compute_consensus, h1, h2]

/-- Dispatch of `compute_consensus` to `max_confidence`. -/
theorem compute_consensus_max {model_outputs : List ModelOutput}
    (hne : model_outputs ≠ []) (htop : top_predictions model_outputs ≠ []) :
    compute_consensus model_outputs "max_confidence" =
      max_confidence (top_predictions model_outputs)
        model_outputs.length := by
  have h1 : model_outputs.isEmpty = false := by
    simpa [List.isEmpty_iff] using hne
  have h2 : (top_predictions model_outputs).isEmpty = false := by
    simpa [List.isEmpty_iff] using htop
  simp [compute_consensus, h1, h2]

/-! ### Claim theorems -/

/-- C3: whenever no output contributes any prediction (the empty list
included), `compute_consensus` returns, for every method, the sentinel
result "No prediction" with confidence 0 and agreement_count 0, and
total_models equal to the input length (0 for the empty list). -/
theorem C3_no_contribution_sentinel (model_outputs : List ModelOutput)
    (method : String) (h : ∀ o ∈ model_outputs, o.predictions = []) :
    compute_consensus model_outputs method = some
      { species_code := none, species_scientific := none,
        species_common := "No prediction", confidence := 0,
        method := method, agreement_count := 0,
        total_models := model_outputs.length } := by
  have htop := top_predictions_eq_nil h
  cases model_outputs with
  | nil => simp [compute_consensus]
  | cons o os => simp [compute_consensus, htop]

/-- Witness for C3 at the empty list and at one output with an empty
prediction list. -/
theorem C3_no_contribution_sentinel_witness :
    compute_consensus [] "majority_vote" = some
      { species_code := none, species_scientific := none,
        species_common := "No prediction", confidence := 0,
        method := "majority_vote", agreement_count := 0,
        total_models := 0 } ∧
    compute_consensus [{ model_name := "m", predictions := [] }]
        "weighted_average" = some
      { species_code := none, species_scientific := none,
        species_common := "No prediction", confidence := 0,
        method := "weighted_average", agreement_count := 0,
        total_models := 1 } :=
  ⟨C3_no_contribution_sentinel [] "majority_vote" (by simp),
    C3_no_contribution_sentinel [⟨"m", []⟩] "weighted_average" (by simp)⟩

/-- C7: `pad_or_trim` always returns exactly the target length; it keeps
the centered window starting at `(len - N) / 2` when longer, zero-pads
with `(N - len) / 2` zeros in front and the remainder behind when shorter,
and is the identity at equal length. -/
theorem C7_pad_or_trim_exact_length (audio : List ℚ) (target_samples : ℕ) :
    (pad_or_trim audio target_samples).length = target_samples ∧
    (audio.length > target_samples →
      pad_or_trim audio target_samples =
        (audio.drop ((audio.length - target_samples) / 2)).take
          target_samples) ∧
    (audio.length < target_samples →
      pad_or_trim audio target_samples =
        List.replicate ((target_samples - audio.length) / 2) 0 ++ audio ++
          List.replicate ((target_samples - audio.length) -
            (target_samples - audio.length) / 2) 0) ∧
    (audio.length = target_samples →
      pad_or_trim audio target_samples = audio) := by
  refine ⟨?_, ?_, ?_, ?_⟩
  · simp only [pad_or_trim]
    split
    · next h =>
      simp only [List.length_take, List.length_drop]
      omega
    · next h =>
      split
      · next h' =>
        simp only [List.length_append, List.length_replicate]
        omega
      · next h' =>
        simp only [gt_iff_lt, not_lt] at h h'
        omega
  · intro h
    simp only [pad_or_trim, if_pos h]
  · intro h
    have h2 : ¬ audio.length > target_samples := by omega
    simp only [pad_or_trim, if_neg h2, if_pos h]
  · intro h
    have h2 : ¬ audio.length > target_samples := by omega
    have h3 : ¬ audio.length < target_samples := by omega
    simp only [pad_or_trim, if_neg h2, if_neg h3]

/-- Witness for C7: trimming five samples to three, padding one sample to
four (extra zero at the end), identity at equal length. -/
theorem C7_pad_or_trim_exact_length_witness :
    (pad_or_trim [(1 : ℚ), 2, 3, 4, 5] 3 =
      ([(1 : ℚ), 2, 3, 4, 5].drop 1).take 3) ∧
    (pad_or_trim [(1 : ℚ)] 4 =
      List.replicate 1 0 ++ [(1 : ℚ)] ++ List.replicate 2 0) ∧
    pad_or_trim [(1 : ℚ), 2] 2 = [1, 2] :=
  ⟨(C7_pad_or_trim_exact_length [1, 2, 3, 4, 5] 3).2.1 (by decide),
    (C7_pad_or_trim_exact_length [1] 4).2.2.1 (by decide),
    (C7_pad_or_trim_exact_length [1, 2] 2).2.2.2 (by decide)⟩

/-- C8: `normalize` is idempotent, produces peak exactly 1 on input with a
positive peak, and returns an all-zero (peak 0) waveform unchanged. -/
theorem C8_normalize_idempotent :
    (∀ w : List ℚ, normalize (normalize w) = normalize w) ∧
    (∀ w : List ℚ, 0 < peakAbs w → peakAbs (normalize w) = 1) ∧
    (∀ w : List ℚ, peakAbs w = 0 → normalize w = w) := by
  have hunfold : ∀ v : List ℚ, 0 < peakAbs v →
      normalize v = v.map (fun x => x / peakAbs v) := by
    intro v hv
    simp only [normalize, if_pos hv]
  have hone : ∀ w : List ℚ, 0 < peakAbs w → peakAbs (normalize w) = 1 := by
    intro w hw
    rw [hunfold w hw, peakAbs_map_div w _ hw, div_self (ne_of_gt hw)]
  have hzero : ∀ w : List ℚ, peakAbs w = 0 → normalize w = w := by
    intro w hw
    simp [normalize, hw]
  refine ⟨?_, hone, hzero⟩
  intro w
  by_cases hw : 0 < peakAbs w
  · have h1 := hone w hw
    have hpos1 : (0 : ℚ) < peakAbs (normalize w) := by
      rw [h1]; norm_num
    rw [hunfold (normalize w) hpos1, h1]
    simp
  · have hw0 : peakAbs w = 0 :=
      le_antisymm (not_lt.mp hw) (peakAbs_nonneg w)
    rw [hzero w hw0, hzero w hw0]

/-- Witness for C8 at a waveform of peak 2 and at the all-zero waveform. -/
theorem C8_normalize_idempotent_witness :
    normalize (normalize [(1 : ℚ), -2]) = normalize [(1 : ℚ), -2] ∧
    peakAbs (normalize [(1 : ℚ), -2]) = 1 ∧
    normalize [(0 : ℚ), 0] = [0, 0] :=
  ⟨C8_normalize_idempotent.1 [1, -2],
    C8_normalize_idempotent.2.1 [1, -2] (by decide),
    C8_normalize_idempotent.2.2 [0, 0] (by decide)⟩

/-- C10: a non-`None` but empty model-name list is falsy in Python, so
`predict_all` selects all registered models, exactly as when no name list
is passed; only a non-empty name list restricts the selection to the
named, registered models. -/
theorem C10_empty_model_names (registry : List (String × BaseBirdModel))
    (audio : List ℚ) (lat lon : Option ℚ) :
    predict_all registry audio lat lon (some []) =
      predict_all registry audio lat lon none ∧
    select_models registry (some []) = registry.map (·.2) ∧
    (∀ names : List String, names ≠ [] →
      select_models registry (some names) =
        names.filterMap (fun name => registry.lookup name)) := by
  refine ⟨rfl, rfl, ?_⟩
  intro names h
  have ht : names_truthy (some names) = true := by
    simp [names_truthy, h]
  simp [select_models, ht]

/-- Witness for C10 at the three-model registry and the name list
["mB"]. -/
theorem C10_empty_model_names_witness :
    select_models registry3 (some ["mB"]) =
      ["mB"].filterMap (fun name => registry3.lookup name) :=
  (C10_empty_model_names registry3 [] none none).2.2 ["mB"] (by simp)

/-- C2: `predict_all` is total (it never propagates a model's raised
exception): it returns exactly the successful outputs of the selected
models in order, its length is the number of succeeding models, it returns
the empty list on an empty registry or when every selected model fails,
and one failure among three selected models yields two outputs. -/
theorem C2_predict_all_drops_failures
    (registry : List (String × BaseBirdModel)) (audio : List ℚ)
    (lat lon : Option ℚ) (model_names : Option (List String)) :
    (predict_all registry audio lat lon model_names =
      ((select_models registry model_names).map
        (fun m => m.predict audio lat lon)).filterMap Except.toOption) ∧
    ((predict_all registry audio lat lon model_names).length =
      ((select_models registry model_names).filter
        (fun m => (m.predict audio lat lon).toOption.isSome)).length) ∧
    (registry = [] → predict_all registry audio lat lon model_names = []) ∧
    ((∀ m ∈ select_models registry model_names,
        (m.predict audio lat lon).toOption = none) →
      predict_all registry audio lat lon model_names = []) ∧
    ((select_models registry model_names).length = 3 →
      ((select_models registry model_names).filter
        (fun m => (m.predict audio lat lon).toOption = none)).length = 1 →
      (predict_all registry audio lat lon model_names).length = 2) := by
  have hlambda : (fun r : Except String ModelOutput =>
      match r with
      | Except.ok output => some output
      | Except.error _ => none) = Except.toOption := by
    funext r
    cases r <;> rfl
  have hmain : predict_all registry audio lat lon model_names =
      ((select_models registry model_names).map
        (fun m => m.predict audio lat lon)).filterMap Except.toOption := by
    rw [predict_all, hlambda]
    by_cases h : (select_models registry model_names).isEmpty
    · rw [if_pos h, List.isEmpty_iff.mp h]
      rfl
    · rw [if_neg h]
  have hlen : (predict_all registry audio lat lon model_names).length =
      ((select_models registry model_names).filter
        (fun m => (m.predict audio lat lon).toOption.isSome)).length := by
    rw [hmain, length_filterMap_isSome, List.filter_map, List.length_map]
    rfl
  refine ⟨hmain, hlen, ?_, ?_, ?_⟩
  · intro h
    subst h
    have hsel : select_models [] model_names = [] := by
      rw [select_models]
      split
      · simp
      · rfl
    rw [hmain, hsel]
    rfl
  · intro h
    rw [hmain, List.filterMap_eq_nil_iff]
    intro r hr
    obtain ⟨m, hm, rfl⟩ := List.mem_map.mp hr
    exact h m hm
  · intro h3 h1
    have hsplit := length_filter_add_not
      (fun m => (m.predict audio lat lon).toOption.isSome)
      (select_models registry model_names)
    have hcongr : ((select_models registry model_names).filter
        (fun m => !(m.predict audio lat lon).toOption.isSome)).length =
        ((select_models registry model_names).filter
          (fun m => (m.predict audio lat lon).toOption = none)).length := by
      congr 1
      apply List.filter_congr
      intro m _
      cases (m.predict audio lat lon).toOption <;> simp
    rw [hlen]
    omega

/-- Witness for C2 at the three-model registry whose second model fails:
two outputs remain. -/
theorem C2_predict_all_drops_failures_witness :
    (predict_all registry3 [] none none none).length = 2 :=
  (C2_predict_all_drops_failures registry3 [] none none none).2.2.2.2
    (by rfl) (by rfl)

/-- C6: `compute_consensus` with "max_confidence" returns the species and
confidence of the top-1 prediction with the highest confidence, and counts
as agreement the models whose top-1 species equals the winner's; on
{A: Robin@0.9, B: Blackbird@0.7} it selects Robin at 0.9 with
agreement_count 1 and total_models 2. -/
theorem C6_max_confidence_consensus (model_outputs : List ModelOutput)
    (hne : model_outputs ≠ [])
    (htop : top_predictions model_outputs ≠ []) :
    (∃ result winner,
      compute_consensus model_outputs "max_confidence" = some result ∧
      winner ∈ top_predictions model_outputs ∧
      result.species_common = winner.species ∧
      result.confidence = winner.confidence ∧
      (∀ p ∈ top_predictions model_outputs,
        p.confidence ≤ winner.confidence) ∧
      result.agreement_count =
        ((top_predictions model_outputs).filter
          (fun p => p.species = winner.species)).length ∧
      result.total_models = model_outputs.length) ∧
    compute_consensus [outRobin, outBlackbird] "max_confidence" = some
      { species_code := none, species_scientific := none,
        species_common := "Robin", confidence := 9/10,
        method := "max_confidence", agreement_count := 1,
        total_models := 2 } := by
  constructor
  · rw [compute_consensus_max hne htop]
    obtain ⟨winner, hw⟩ :=
      maxByKey_isSome (fun p : TopPrediction => p.confidence) htop
    obtain ⟨l1, l2, hsplit, hpre, hmax⟩ := maxByKey_eq_some hw
    have hval : max_confidence (top_predictions model_outputs)
        model_outputs.length = some
        { species_code := winner.species_code
          species_scientific := winner.species_scientific
          species_common := winner.species
          confidence := winner.confidence
          method := "max_confidence"
          agreement_count := ((top_predictions model_outputs).filter
            (fun p => p.species = winner.species)).length
          total_models := model_outputs.length } := by
      simp only [max_confidence, hw, Option.map_some']
    exact ⟨_, winner, hval, maxByKey_mem hw, rfl, rfl, hmax, rfl, rfl⟩
  · have hne6 : ([outRobin, outBlackbird] : List ModelOutput) ≠ [] := by
      simp
    have htop6 : top_predictions [outRobin, outBlackbird] ≠ [] := by
      simp [top_predictions, outRobin, outBlackbird]
    rw [compute_consensus_max hne6 htop6]
    have hlt : ¬ ((7 : ℚ)/10 > (9 : ℚ)/10) := by norm_num
    simp [top_predictions, outRobin, outBlackbird, max_confidence,
      maxByKey, hlt]

/-- `dedupKeys` of a non-empty list is non-empty. -/
theorem dedupKeys_ne_nil {l : List String} (h : l ≠ []) :
    dedupKeys l ≠ [] := by
  cases l with
  | nil => exact absurd rfl h
  | cons a rest => rw [dedupKeys]; simp

/-- C1: `compute_consensus` with "weighted_average" groups top-1
predictions by species, sums confidences per group, declares the group
with the greatest sum the winner, reports its average confidence and its
member count as agreement, and counts every input output (also those with
no predictions) in total_models; two outputs naming "Eurasian Blackbird"
at 0.92 and 0.88 yield confidence 0.9, agreement 2, total 2. -/
theorem C1_weighted_average_consensus (model_outputs : List ModelOutput)
    (hne : model_outputs ≠ [])
    (htop : top_predictions model_outputs ≠ []) :
    (∃ result winner,
      compute_consensus model_outputs "weighted_average" = some result ∧
      result.species_common = winner ∧
      winner ∈ (top_predictions model_outputs).map (·.species) ∧
      (∀ s ∈ (top_predictions model_outputs).map (·.species),
        (((top_predictions model_outputs).filter
            (fun p => p.species = s)).map (·.confidence)).sum ≤
          (((top_predictions model_outputs).filter
            (fun p => p.species = winner)).map (·.confidence)).sum) ∧
      result.confidence =
        (((top_predictions model_outputs).filter
            (fun p => p.species = winner)).map (·.confidence)).sum /
          ((((top_predictions model_outputs).filter
            (fun p => p.species = winner)).length : ℕ) : ℚ) ∧
      result.agreement_count =
        ((top_predictions model_outputs).filter
          (fun p => p.species = winner)).length ∧
      result.total_models = model_outputs.length) ∧
    compute_consensus [blackbird92, blackbird88] "weighted_average" = some
      { species_code := none, species_scientific := none,
        species_common := "Eurasian Blackbird", confidence := 9/10,
        method := "weighted_average", agreement_count := 2,
        total_models := 2 } := by
  constructor
  · rw [compute_consensus_weighted hne htop]
    have hnames : (top_predictions model_outputs).map (·.species) ≠ [] :=
      fun hc => htop (List.map_eq_nil_iff.mp hc)
    have hscores_ne : species_scores (top_predictions model_outputs) ≠ [] := by
      rw [species_scores]
      exact fun hc => dedupKeys_ne_nil hnames (List.map_eq_nil_iff.mp hc)
    obtain ⟨wpair, hw⟩ :=
      maxByKey_isSome (fun it : String × SpeciesScore => it.2.score)
        hscores_ne
    obtain ⟨l1, l2, hsplit, hpre, hmax⟩ := maxByKey_eq_some hw
    have hmem : wpair ∈ species_scores (top_predictions model_outputs) :=
      maxByKey_mem hw
    rw [species_scores] at hmem
    obtain ⟨winner, hwin_mem, hg⟩ := List.mem_map.mp hmem
    have hwn : winner ∈ (top_predictions model_outputs).map (·.species) :=
      mem_dedupKeys.mp hwin_mem
    obtain ⟨wp, hfind, hwp_species⟩ := find?_species_of_mem hwn
    subst hg
    have hval : weighted_average (top_predictions model_outputs)
        model_outputs.length = some
        { species_code := wp.species_code
          species_scientific := wp.species_scientific
          species_common := winner
          confidence := (((top_predictions model_outputs).filter
              (fun p => p.species = winner)).map (·.confidence)).sum /
            ((((top_predictions model_outputs).filter
              (fun p => p.species = winner)).length : ℕ) : ℚ)
          method := "weighted_average"
          agreement_count := ((top_predictions model_outputs).filter
            (fun p => p.species = winner)).length
          total_models := model_outputs.length } := by
      simp only [weighted_average, hw, hfind]
    refine ⟨_, winner, hval, rfl, hwn, ?_, rfl, rfl, rfl⟩
    intro s hs
    have hgs : ((s, ⟨(((top_predictions model_outputs).filter
          (fun p => p.species = s)).map (·.confidence)).sum,
        ((top_predictions model_outputs).filter
          (fun p => p.species = s)).length,
        (top_predictions model_outputs).find?
          (fun p => p.species = s)⟩) : String × SpeciesScore) ∈
        species_scores (top_predictions model_outputs) := by
      rw [species_scores]
      exact List.mem_map_of_mem _ (mem_dedupKeys.mpr hs)
    exact hmax _ hgs
  · have hne1 : ([blackbird92, blackbird88] : List ModelOutput) ≠ [] := by
      simp
    have htop1 : top_predictions [blackbird92, blackbird88] ≠ [] := by
      simp [top_predictions, blackbird92, blackbird88]
    rw [compute_consensus_weighted hne1 htop1]
    simp [top_predictions, blackbird92, blackbird88, weighted_average,
      species_scores, dedupKeys, maxByKey]
    norm_num

/-- Witness for C1: the two-blackbird example. -/
theorem C1_weighted_average_consensus_witness :
    compute_consensus [blackbird92, blackbird88] "weighted_average" = some
      { species_code := none, species_scientific := none,
        species_common := "Eurasian Blackbird", confidence := 9/10,
        method := "weighted_average", agreement_count := 2,
        total_models := 2 } :=
  (C1_weighted_average_consensus [blackbird92, blackbird88] (by simp)
    (by simp [top_predictions, blackbird92, blackbird88])).2

/-- C5: `compute_consensus` with "majority_vote" returns the species
occurring most often among top-1 predictions, breaking count ties in
favour of the species first seen in the input order (smallest index of
first occurrence); the confidence is the arithmetic mean over the
predictions naming the winner and agreement_count is the winner's
occurrence count. -/
theorem C5_majority_vote_consensus (model_outputs : List ModelOutput)
    (hne : model_outputs ≠ [])
    (htop : top_predictions model_outputs ≠ []) :
    (∃ result winner,
      compute_consensus model_outputs "majority_vote" = some result ∧
      result.species_common = winner ∧
      winner ∈ (top_predictions model_outputs).map (·.species) ∧
      (∀ s ∈ (top_predictions model_outputs).map (·.species),
        ((top_predictions model_outputs).filter
            (fun p => p.species = s)).length ≤
          ((top_predictions model_outputs).filter
            (fun p => p.species = winner)).length) ∧
      (∀ s ∈ (top_predictions model_outputs).map (·.species),
        ((top_predictions model_outputs).filter
            (fun p => p.species = s)).length =
          ((top_predictions model_outputs).filter
            (fun p => p.species = winner)).length →
        ((top_predictions model_outputs).map (·.species)).indexOf winner ≤
          ((top_predictions model_outputs).map (·.species)).indexOf s) ∧
      result.confidence =
        (((top_predictions model_outputs).filter
            (fun p => p.species = winner)).map (·.confidence)).sum /
          ((((top_predictions model_outputs).filter
            (fun p => p.species = winner)).length : ℕ) : ℚ) ∧
      result.agreement_count =
        ((top_predictions model_outputs).filter
          (fun p => p.species = winner)).length ∧
      result.total_models = model_outputs.length) ∧
    compute_consensus [outRobin, outBlackbird] "majority_vote" = some
      { species_code := none, species_scientific := none,
        species_common := "Robin", confidence := 9/10,
        method := "majority_vote", agreement_count := 1,
        total_models := 2 } := by
  constructor
  · rw [compute_consensus_majority hne htop]
    have hnames : (top_predictions model_outputs).map (·.species) ≠ [] :=
      fun hc => htop (List.map_eq_nil_iff.mp hc)
    have hitems_ne : counterItems (top_predictions model_outputs) ≠ [] := by
      rw [counterItems]
      exact fun hc => dedupKeys_ne_nil hnames (List.map_eq_nil_iff.mp hc)
    obtain ⟨wpair, hw⟩ :=
      maxByKey_isSome (fun it : String × ℕ => it.2) hitems_ne
    obtain ⟨l1, l2, hsplit, hpre, hmax⟩ := maxByKey_eq_some hw
    have hmem : wpair ∈ counterItems (top_predictions model_outputs) :=
      maxByKey_mem hw
    rw [counterItems] at hmem
    obtain ⟨winner, hwin_mem, hg⟩ := List.mem_map.mp hmem
    have hwn : winner ∈ (top_predictions model_outputs).map (·.species) :=
      mem_dedupKeys.mp hwin_mem
    obtain ⟨wp, hfind, hwp_species⟩ := find?_species_of_mem hwn
    subst hg
    have hval : majority_vote (top_predictions model_outputs)
        model_outputs.length = some
        { species_code := wp.species_code
          species_scientific := wp.species_scientific
          species_common := winner
          confidence := (((top_predictions model_outputs).filter
              (fun p => p.species = winner)).map (·.confidence)).sum /
            ((((top_predictions model_outputs).filter
              (fun p => p.species = winner)).length : ℕ) : ℚ)
          method := "majority_vote"
          agreement_count := ((top_predictions model_outputs).filter
            (fun p => p.species = winner)).length
          total_models := model_outputs.length } := by
      simp only [majority_vote, hw, hfind]
    refine ⟨_, winner, hval, rfl, hwn, ?_, ?_, rfl, rfl, rfl⟩
    · intro s hs
      have hgs : ((s, ((top_predictions model_outputs).filter
            (fun p => p.species = s)).length) : String × ℕ) ∈
          counterItems (top_predictions model_outputs) := by
        rw [counterItems]
        exact List.mem_map_of_mem _ (mem_dedupKeys.mpr hs)
      exact hmax _ hgs
    · intro s hs heq
      rw [counterItems] at hsplit
      obtain ⟨d1, drest, hdedup, hmap1, hmap2⟩ :=
        List.map_eq_append_iff.mp hsplit
      obtain ⟨w', d2, hdrest, hgw, hmapd2⟩ :=
        List.map_eq_cons_iff.mp hmap2
      have hw'_eq : w' = winner := congrArg Prod.fst hgw
      subst hw'_eq
      subst hdrest
      have hsd : s ∈ dedupKeys
          ((top_predictions model_outputs).map (·.species)) :=
        mem_dedupKeys.mpr hs
      rw [hdedup] at hsd
      rcases List.mem_append.mp hsd with hsd1 | hsd2
      · exfalso
        have hgs1 : ((s, ((top_predictions model_outputs).filter
            (fun p => p.species = s)).length) : String × ℕ) ∈
            d1.map (fun u : String =>
              (u, ((top_predictions model_outputs).filter
                (fun p => p.species = u)).length)) :=
          List.mem_map_of_mem _ hsd1
        rw [hmap1] at hgs1
        have hcount := hpre _ hgs1
        have hlt : ((top_predictions model_outputs).filter
            (fun p => p.species = s)).length <
            ((top_predictions model_outputs).filter
              (fun p => p.species = w')).length := by
          simpa using hcount
        omega
      · rcases List.mem_cons.mp hsd2 with rfl | hsd2
        · exact le_refl _
        · exact le_of_lt (dedupKeys_indexOf_lt _ d1 d2 w' s hdedup hsd2)
  · have hne5 : ([outRobin, outBlackbird] : List ModelOutput) ≠ [] := by
      simp
    have htop5 : top_predictions [outRobin, outBlackbird] ≠ [] := by
      simp [top_predictions, outRobin, outBlackbird]
    rw [compute_consensus_majority hne5 htop5]
    simp [top_predictions, outRobin, outBlackbird, majority_vote,
      counterItems, dedupKeys, maxByKey]

/-- Witness for C5: the Robin/Blackbird majority-vote example (a count
tie resolved to the first-seen species Robin). -/
theorem C5_majority_vote_consensus_witness :
    compute_consensus [outRobin, outBlackbird] "majority_vote" = some
      { species_code := none, species_scientific := none,
        species_common := "Robin", confidence := 9/10,
        method := "majority_vote", agreement_count := 1,
        total_models := 2 } :=
  (C5_majority_vote_consensus [outRobin, outBlackbird] (by simp)
    (by simp [top_predictions, outRobin, outBlackbird])).2

/-- C4 counterexample: with the band-pass stage enabled at a high cutoff
of 9000 Hz and Nyquist 8000 Hz (16 kHz sample rate), `enhance` does NOT
skip the stage: the high cutoff is clamped and the filter applied, the
waveform changes and the metadata records applied = true — contradicting
the claim that every stage with a cutoff at or above Nyquist is skipped
with the waveform unchanged and applied = false. -/
theorem C4_counterexample_bandpass_clamps :
    enhance capsExample [1] 16000 bandpassAboveNyquist =
      ([2], { bandpass := some ⟨true, true, 1000, 9000⟩ }) ∧
    (enhance capsExample [1] 16000 bandpassAboveNyquist).1 ≠ [1] ∧
    (enhance capsExample [1] 16000 bandpassAboveNyquist).2.bandpass ≠
      some ⟨true, false, 1000, 9000⟩ := by
  have hmain : enhance capsExample [1] 16000 bandpassAboveNyquist =
      ([2], { bandpass := some ⟨true, true, 1000, 9000⟩ }) := by
    have hge : ((16000 : ℕ) : ℚ) / 2 ≤ ((9000 : ℤ) : ℚ) := by norm_num
    have hfl : ¬ ((1000 : ℤ) ≥ ⌊((16000 : ℕ) : ℚ)/2 * (95/100)⌋) := by
      norm_num
    simp [enhance, bandpassAboveNyquist, apply_bandpass, capsExample,
      hge, hfl]
    norm_num
  refine ⟨hmain, ?_, ?_⟩
  · rw [hmain]
    simp
  · rw [hmain]
    simp

/-- C4 amended: a high-pass stage whose cutoff reaches Nyquist is indeed
skipped (waveform unchanged, applied = false recorded by `enhance`); the
band-pass stage, however, clamps a high cutoff at or above Nyquist down to
`int(0.95 * nyquist)` and still applies the filter whenever the low cutoff
is below the clamped value — it skips (unchanged, applied = false) only
when the low cutoff reaches the clamped high cutoff. -/
theorem C4_amended_enhancement_skip :
    (∀ (caps : DspCapabilities) (audio : List ℚ) (sample_rate : ℕ)
        (cutoff_freq : Int),
      (sample_rate : ℚ) / 2 ≤ (cutoff_freq : ℚ) →
      apply_highpass caps audio sample_rate cutoff_freq =
        (audio, false)) ∧
    (∀ (caps : DspCapabilities) (audio : List ℚ) (sample_rate : ℕ)
        (f : Int),
      (sample_rate : ℚ) / 2 ≤ (f : ℚ) →
      enhance caps audio sample_rate
        { highpass_enabled := true, highpass_freq := f } =
        (audio, { highpass := some ⟨true, false, f⟩ })) ∧
    (∀ (caps : DspCapabilities) (audio : List ℚ) (sample_rate : ℕ)
        (low_freq high_freq : Int) (order : ℕ),
      (sample_rate : ℚ) / 2 ≤ (high_freq : ℚ) →
      ⌊(sample_rate : ℚ) / 2 * (95 / 100)⌋ ≤ low_freq →
      apply_bandpass caps audio sample_rate low_freq high_freq order =
        (audio, false)) ∧
    (∀ (caps : DspCapabilities) (audio filtered : List ℚ)
        (sample_rate : ℕ) (low_freq high_freq : Int) (order : ℕ),
      caps.scipy_available = true →
      (sample_rate : ℚ) / 2 ≤ (high_freq : ℚ) →
      low_freq < ⌊(sample_rate : ℚ) / 2 * (95 / 100)⌋ →
      caps.butter_filtfilt_bandpass order
          ((low_freq : ℚ) / ((sample_rate : ℚ) / 2))
          (((⌊(sample_rate : ℚ) / 2 * (95 / 100)⌋ : ℤ) : ℚ) /
            ((sample_rate : ℚ) / 2)) audio = some filtered →
      apply_bandpass caps audio sample_rate low_freq high_freq order =
        (filtered, true)) := by
  have hhp : ∀ (caps : DspCapabilities) (audio : List ℚ)
      (sample_rate : ℕ) (cutoff_freq : Int),
      (sample_rate : ℚ) / 2 ≤ (cutoff_freq : ℚ) →
      apply_highpass caps audio sample_rate cutoff_freq =
        (audio, false) := by
    intro caps audio sample_rate cutoff_freq h
    by_cases hsp : caps.scipy_available
    · simp [apply_highpass, hsp, h]
    · simp [apply_highpass, hsp]
  refine ⟨hhp, ?_, ?_, ?_⟩
  · intro caps audio sample_rate f h
    have h1 := hhp caps audio sample_rate f h
    simp [enhance, h1]
  · intro caps audio sample_rate low_freq high_freq order hhigh hlow
    by_cases hsp : caps.scipy_available
    · simp [apply_bandpass, hsp, hhigh, hlow]
    · simp [apply_bandpass, hsp]
  · intro caps audio filtered sample_rate low_freq high_freq order hsp
      hhigh hlow hfilt
    simp [apply_bandpass, hsp, hhigh, not_le.mpr hlow, hfilt]

/-- Witness for C4's amended theorem at a 16 kHz signal: a high-pass at
9000 Hz is skipped; a band-pass with low cutoff 7700 (at or above the
clamped high cutoff 7600) is skipped; a band-pass with low cutoff 1000 is
applied with the clamped high cutoff. -/
theorem C4_amended_enhancement_skip_witness :
    apply_highpass capsExample [1] 16000 9000 = ([1], false) ∧
    enhance capsExample [1] 16000
      { highpass_enabled := true, highpass_freq := 9000 } =
      ([1], { highpass := some ⟨true, false, 9000⟩ }) ∧
    apply_bandpass capsExample [1] 16000 7700 9000 5 = ([1], false) ∧
    apply_bandpass capsExample [1] 16000 1000 9000 5 = ([2], true) :=
  ⟨C4_amended_enhancement_skip.1 capsExample [1] 16000 9000 (by norm_num),
    C4_amended_enhancement_skip.2.1 capsExample [1] 16000 9000
      (by norm_num),
    C4_amended_enhancement_skip.2.2.1 capsExample [1] 16000 7700 9000 5
      (by norm_num) (by norm_num),
    C4_amended_enhancement_skip.2.2.2 capsExample [1] [2] 16000 1000 9000 5
      rfl (by norm_num) (by norm_num) (by norm_num [capsExample])⟩

/-- The RMS of a constant nonnegative waveform is its amplitude. -/
theorem rms_replicate {a : ℝ} (ha : 0 ≤ a) {n : ℕ} (hn : 0 < n) :
    rms (List.replicate n a) = a := by
  rw [rms, List.map_replicate, List.sum_replicate, List.length_replicate,
    nsmul_eq_mul, mul_div_cancel_left₀ _ (Nat.cast_ne_zero.mpr hn.ne' :
      ((n : ℝ) ≠ 0))]
  exact Real.sqrt_sq ha

/-- C9: `detect_silence` holds exactly when `20 * log10(rms + 1e-10)` is
below the threshold; at the default threshold of -40 dB a constant
waveform of amplitude 1e-5 is classified silent and one of amplitude 0.5
is not. -/
theorem C9_detect_silence_threshold :
    (∀ (audio : List ℝ) (threshold_db : ℝ),
      detect_silence audio threshold_db ↔
        20 * Real.logb 10 (rms audio + 1e-10) < threshold_db) ∧
    (∀ n : ℕ, 0 < n →
      detect_silence (List.replicate n (1e-5 : ℝ)) (-40)) ∧
    (∀ n : ℕ, 0 < n →
      ¬ detect_silence (List.replicate n (0.5 : ℝ)) (-40)) := by
  have hb : (1 : ℝ) < 10 := by norm_num
  have hpow : (10 : ℝ) ^ (-2 : ℝ) = 1/100 := by
    rw [show (-2 : ℝ) = ((-2 : ℤ) : ℝ) by norm_num, Real.rpow_intCast]
    norm_num
  refine ⟨fun _ _ => Iff.rfl, ?_, ?_⟩
  · intro n hn
    rw [detect_silence, rms_replicate (by norm_num) hn]
    have hx : (0 : ℝ) < 1e-5 + 1e-10 := by norm_num
    have hlogb : Real.logb 10 (1e-5 + 1e-10) < -2 := by
      rw [Real.logb_lt_iff_lt_rpow hb hx, hpow]
      norm_num
    linarith
  · intro n hn
    rw [detect_silence, rms_replicate (by norm_num) hn]
    have hy : (0 : ℝ) < 0.5 + 1e-10 := by norm_num
    have hlogb : (-2 : ℝ) ≤ Real.logb 10 (0.5 + 1e-10) := by
      rw [Real.le_logb_iff_rpow_le hb hy, hpow]
      norm_num
    intro hcon
    linarith

/-- Witness for C9 at one-sample waveforms. -/
theorem C9_detect_silence_threshold_witness :
    detect_silence (List.replicate 1 (1e-5 : ℝ)) (-40) ∧
    ¬ detect_silence (List.replicate 1 (0.5 : ℝ)) (-40) :=
  ⟨C9_detect_silence_threshold.2.1 1 Nat.one_pos,
    C9_detect_silence_threshold.2.2 1 Nat.one_pos⟩

/-- Witness for C6: the Robin/Blackbird tie-break example. -/
theorem C6_max_confidence_consensus_witness :
    compute_consensus [outRobin, outBlackbird] "max_confidence" = some
      { species_code := none, species_scientific := none,
        species_common := "Robin", confidence := 9/10,
        method := "max_confidence", agreement_count := 1,
        total_models := 2 } :=
  (C6_max_confidence_consensus [outRobin, outBlackbird] (by decide)
    (by decide)).2

end Birds
